import Mathlib

/-!
Shallow embedding of `skada/feature/base.py` (`BaseDANetwork`): the
dual-stream epoch/batch training loop of the domain-adaptation engine.

Modelling conventions:
* a minibatch is reduced to its identity and its example count
  (`len(batch[0])` in the source);
* loss scalars are integers (their exact values are irrelevant to the
  control-flow and recording properties proved here);
* the side effects of the loop (callback notifications, history records,
  optimizer interactions) are reified as an explicit trace of items, in
  the order the Python code performs them;
* Python exceptions are modelled with `Except`: `StopIteration` from an
  exhausted iterator and `KeyboardInterrupt` arriving inside a step;
* external collaborators (the torch module forward pass, the abstract
  `_get_loss_da` contract, the optimizer, the step accumulator) are
  parameters of the corresponding definitions.
-/

namespace Skada

/-- A minibatch: `bid` identifies which draw of a loader produced it and
`size` is its example count (`len(batch[0])` in the source). -/
structure Batch where
  bid : Nat
  size : Nat
deriving DecidableEq, Repr

/-- The Step Result dictionary built by `train_step_single`: total loss,
classification loss and domain-adaptation loss. -/
structure StepResult where
  loss : Int
  loss_classif : Int
  loss_da : Int
deriving DecidableEq, Repr

/-- The Python exceptions visible to the fit machinery. -/
inductive PyError where
  | stopIteration
  | keyboardInterrupt
deriving DecidableEq, Repr

/-- Callback notifications emitted through `self.notify`.  Epoch events
carry the dataset references passed in `on_epoch_kwargs`; datasets are
identified by numbers. -/
inductive Event where
  | onTrainBegin
  | onTrainEnd
  | onEpochBegin (dsTrain dsTarget : Nat) (dsValid : Option Nat)
  | onEpochEnd (dsTrain dsTarget : Nat) (dsValid : Option Nat)
  | onBatchBegin (b : Batch) (training : Bool)
  | onBatchEnd (b : Batch) (training : Bool) (step : StepResult)
  | onGradComputed (params : Nat) (b : Batch)
deriving DecidableEq, Repr

/-- One observable action of the training machinery, in program order:
a notification, an invocation of the per-batch step function, a gradient
clear, or a history record (batch level or epoch level). -/
inductive TraceItem where
  | ev (e : Event)
  | stepCall (b bt : Batch)
  | zeroGrad
  | recBatch (name : String) (value : Int)
  | recEpoch (name : String) (value : Nat)
deriving DecidableEq, Repr

/-- The sequence of observable actions of a run. -/
abbrev Trace := List TraceItem

/-! ## Activation capture (`intermediate_layers` and the forward hooks) -/

/-- Which stream an activation or prediction was derived from. -/
inductive Domain where
  | source
  | target
deriving DecidableEq, Repr

/-- A captured value: the stream and the batch that produced it. -/
structure ActVal where
  dom : Domain
  bid : Nat
deriving DecidableEq, Repr

/-- The Intermediate Activation Map `self.intermediate_layers`, keyed by
layer name. -/
abbrev ActMap := List (String × ActVal)

/-- Overwrite (or insert) the entry of key `k`. -/
def mapSet : ActMap → String → ActVal → ActMap
  | [], k, v => [(k, v)]
  | (k', v') :: rest, k, v =>
      if k' = k then (k, v) :: rest else (k', v') :: mapSet rest k v

/-- Look up the entry of key `k`. -/
def mapGet : ActMap → String → Option ActVal
  | [], _ => none
  | (k', v') :: rest, k => if k' = k then some v' else mapGet rest k

/-- `self.infer` as seen through the hooks installed by
`_register_forwards_hook`: a forward pass writes the layer output of every
declared layer into the activation map, overwriting prior values, and
yields the module prediction for the input. -/
def inferHooks (layerNames : List String) (m : ActMap) (v : ActVal) : ActMap :=
  match layerNames with
  | [] => m
  | ln :: rest => inferHooks rest (mapSet m ln v) v

/-- The abstract `_get_loss_da` contract: from the source prediction, the
target prediction and the two embedding snapshots, produce
`(loss, loss_classif, loss_da)`. -/
abbrev LossFn :=
  ActVal → ActVal → List (Option ActVal) → List (Option ActVal) → Int × Int × Int

/-- What `train_step_single` produces: the final activation map, the two
embedding snapshots it passed to `_get_loss_da`, and the Step Result. -/
structure SingleOut where
  actMap : ActMap
  embedd : List (Option ActVal)
  embedd_target : List (Option ActVal)
  result : StepResult
deriving DecidableEq, Repr

/-- `BaseDANetwork.train_step_single`: source forward pass, snapshot the
declared layers (source embeddings), target forward pass, snapshot again
(target embeddings), invoke the loss contract, backpropagate. -/
def train_step_single (layerNames : List String) (lossFn : LossFn)
    (m : ActMap) (batch batchTarget : Batch) : SingleOut :=
  let y_pred : ActVal := ⟨Domain.source, batch.bid⟩
  let m1 := inferHooks layerNames m y_pred
  let embedd := layerNames.map (mapGet m1)
  let y_pred_target : ActVal := ⟨Domain.target, batchTarget.bid⟩
  let m2 := inferHooks layerNames m1 y_pred_target
  let embedd_target := layerNames.map (mapGet m2)
  let r := lossFn y_pred y_pred_target embedd embedd_target
  { actMap := m2, embedd := embedd, embedd_target := embedd_target,
    result := ⟨r.1, r.2.1, r.2.2⟩ }

/-! ## Optimizer driver (`train_step`) -/

/-- The step accumulator obtained from `get_train_step_accumulator`
(external collaborator): `store` is called once per closure invocation,
`get` reads the accumulated step back at the end of `train_step`. -/
structure Accumulator (σ : Type) where
  init : σ
  store : σ → StepResult → σ
  get : σ → StepResult

/-- An accumulator that keeps the step of the most recent invocation it
recorded (`d` is only returned if nothing was ever stored). -/
def lastStepAccumulator (d : StepResult) : Accumulator (Option StepResult) :=
  { init := none, store := fun _ s => some s, get := fun o => o.getD d }

/-- What `train_step` produces, with its observable actions reified:
the trace (gradient clears and `on_grad_computed` notifications in
order), the final activation map, the scalar losses the closure returned
to the optimizer at each invocation, and the returned Step Result. -/
structure TrainStepRes (σ : Type) where
  trace : Trace
  actMap : ActMap
  closureLosses : List Int
  result : StepResult

/-- Auxiliary output of the optimizer loop. -/
structure DriverOut (σ : Type) where
  trace : Trace
  accState : σ
  actMap : ActMap
  closureLosses : List Int

/-- `self._step_optimizer(step_fn)` modelled as `k` sequential invocations
of the closure (optimizers may re-evaluate the closure; `lossFnAt i` is
the loss contract as seen at the `i`-th invocation, since the optimizer
may move the parameters between evaluations).  Each invocation clears the
gradients, runs `train_step_single`, stores the Step Result into the
accumulator, notifies `on_grad_computed` with the learnable-parameter
snapshot and the source batch, and returns the total loss. -/
def stepOptimizer {σ : Type} (layerNames : List String) (lossFnAt : Nat → LossFn)
    (params : Nat) (acc : Accumulator σ) (batch batchTarget : Batch) :
    Nat → Nat → σ → ActMap → DriverOut σ
  | _, 0, st, m => ⟨[], st, m, []⟩
  | i, k + 1, st, m =>
    let single := train_step_single layerNames (lossFnAt i) m batch batchTarget
    let st1 := acc.store st single.result
    let rest := stepOptimizer layerNames lossFnAt params acc batch batchTarget
        (i + 1) k st1 single.actMap
    ⟨TraceItem.zeroGrad :: TraceItem.ev (Event.onGradComputed params batch) :: rest.trace,
     rest.accState, rest.actMap, single.result.loss :: rest.closureLosses⟩

/-- `BaseDANetwork.train_step`: build the accumulator, hand the closure to
the optimizer's step routine, and return the accumulated Step Result. -/
def train_step {σ : Type} (layerNames : List String) (lossFnAt : Nat → LossFn)
    (params : Nat) (acc : Accumulator σ) (k : Nat) (m : ActMap)
    (batch batchTarget : Batch) : TrainStepRes σ :=
  let r := stepOptimizer layerNames lossFnAt params acc batch batchTarget 0 k acc.init m
  ⟨r.trace, r.actMap, r.closureLosses, acc.get r.accState⟩

/-! ## The epoch loop (`run_single_epoch`) -/

/-- The trace of one processed source batch in the training pass of
`run_single_epoch`: `on_batch_begin`, the call of `step_fn` on the pair,
the four batch-level history records, `on_batch_end` with the Step Result
merged in. -/
def trainBatchBlock (pre : String) (b bt : Batch) (step : StepResult) : Trace :=
  [TraceItem.ev (Event.onBatchBegin b true),
   TraceItem.stepCall b bt,
   TraceItem.recBatch (pre ++ "_loss") step.loss,
   TraceItem.recBatch (pre ++ "_loss_classif") step.loss_classif,
   TraceItem.recBatch (pre ++ "_loss_da") step.loss_da,
   TraceItem.recBatch (pre ++ "_batch_size") (Int.ofNat b.size),
   TraceItem.ev (Event.onBatchEnd b true step)]

/-- The `for batch in iterator` loop of the training branch of
`run_single_epoch`.  Per source batch: draw `next(iter(iterator_target))`
(the head of the target loader, a fresh cursor each time; `StopIteration`
if the target loader is empty), break on a size mismatch, otherwise
notify, step, record and count.  Returns the trace and the final
`batch_count` (or the propagated exception). -/
def trainPassLoop (stepFn : Batch → Batch → Except PyError StepResult)
    (pre : String) (iteratorTarget : List Batch) :
    List Batch → Nat → Trace × Except PyError Nat
  | [], count => ([], Except.ok count)
  | batch :: rest, count =>
    match iteratorTarget with
    | [] => ([], Except.error PyError.stopIteration)
    | batchTarget :: _ =>
      if batch.size ≠ batchTarget.size then
        ([], Except.ok count)
      else
        match stepFn batch batchTarget with
        | Except.error e =>
            ([TraceItem.ev (Event.onBatchBegin batch true),
              TraceItem.stepCall batch batchTarget], Except.error e)
        | Except.ok step =>
            let r := trainPassLoop stepFn pre iteratorTarget rest (count + 1)
            (trainBatchBlock pre batch batchTarget step ++ r.1, r.2)

/-- The training branch of `run_single_epoch`: run the batch loop from
`batch_count = 0`, then record `prefix + "_batch_count"` (skipped when an
exception escapes the loop). -/
def runSingleEpochTrain (stepFn : Batch → Batch → Except PyError StepResult)
    (pre : String) (iterator iteratorTarget : List Batch) :
    Trace × Except PyError Unit :=
  match trainPassLoop stepFn pre iteratorTarget iterator 0 with
  | (tr, Except.ok count) =>
      (tr ++ [TraceItem.recEpoch (pre ++ "_batch_count") count], Except.ok ())
  | (tr, Except.error e) => (tr, Except.error e)

/-- The trace of one batch in the validation pass: `on_batch_begin`, the
two batch-level records, `on_batch_end`. -/
def validBatchBlock (pre : String) (b : Batch) (step : StepResult) : Trace :=
  [TraceItem.ev (Event.onBatchBegin b false),
   TraceItem.recBatch (pre ++ "_loss") step.loss,
   TraceItem.recBatch (pre ++ "_batch_size") (Int.ofNat b.size),
   TraceItem.ev (Event.onBatchEnd b false step)]

/-- The `for batch in iterator` loop of the validation branch. -/
def validPassLoop (stepFn : Batch → Except PyError StepResult) (pre : String) :
    List Batch → Nat → Trace × Except PyError Nat
  | [], count => ([], Except.ok count)
  | batch :: rest, count =>
    match stepFn batch with
    | Except.error e =>
        ([TraceItem.ev (Event.onBatchBegin batch false)], Except.error e)
    | Except.ok step =>
        let r := validPassLoop stepFn pre rest (count + 1)
        (validBatchBlock pre batch step ++ r.1, r.2)

/-- The validation branch of `run_single_epoch`: `if iterator is None:
return` (no record at all), otherwise loop and record the batch count. -/
def runSingleEpochValid (stepFn : Batch → Except PyError StepResult)
    (pre : String) (iterator : Option (List Batch)) :
    Trace × Except PyError Unit :=
  match iterator with
  | none => ([], Except.ok ())
  | some l =>
    match validPassLoop stepFn pre l 0 with
    | (tr, Except.ok count) =>
        (tr ++ [TraceItem.recEpoch (pre ++ "_batch_count") count], Except.ok ())
    | (tr, Except.error e) => (tr, Except.error e)

/-! ## The fit loop and the orchestrator -/

/-- Everything `fit_loop` obtained from the external collaborators before
entering the epoch loop: the datasets (as references), the iterators
drawn from them, the per-batch step functions and `max_epochs`. -/
structure FitEnv where
  datasetTrain : Nat
  datasetTarget : Nat
  datasetValid : Option Nat
  iteratorTrain : List Batch
  iteratorTarget : List Batch
  iteratorValid : Option (List Batch)
  stepFn : Batch → Batch → Except PyError StepResult
  validStepFn : Batch → Except PyError StepResult
  maxEpochs : Nat

/-- One iteration of the `for _ in range(epochs)` body: `on_epoch_begin`
with the dataset references, the training pass, the validation pass,
`on_epoch_end`; an escaping exception aborts the epoch. -/
def epochBody (env : FitEnv) : Trace × Except PyError Unit :=
  let trB : Trace :=
    [TraceItem.ev (Event.onEpochBegin env.datasetTrain env.datasetTarget env.datasetValid)]
  match runSingleEpochTrain env.stepFn "train" env.iteratorTrain env.iteratorTarget with
  | (trT, Except.error e) => (trB ++ trT, Except.error e)
  | (trT, Except.ok _) =>
    match runSingleEpochValid env.validStepFn "valid" env.iteratorValid with
    | (trV, Except.error e) => (trB ++ trT ++ trV, Except.error e)
    | (trV, Except.ok _) =>
      (trB ++ trT ++ trV ++
        [TraceItem.ev (Event.onEpochEnd env.datasetTrain env.datasetTarget env.datasetValid)],
       Except.ok ())

/-- `for _ in range(epochs)`: run `epochBody` the given number of times,
propagating the first escaping exception. -/
def fitLoopEpochs (env : FitEnv) : Nat → Trace × Except PyError Unit
  | 0 => ([], Except.ok ())
  | n + 1 =>
    match epochBody env with
    | (tr, Except.error e) => (tr, Except.error e)
    | (tr, Except.ok _) =>
      let r := fitLoopEpochs env n
      (tr ++ r.1, r.2)

/-- `BaseDANetwork.fit_loop`: `epochs = epochs if epochs is not None else
self.max_epochs`, then the epoch loop. -/
def fit_loop (env : FitEnv) (epochs : Option Nat) : Trace × Except PyError Unit :=
  fitLoopEpochs env (epochs.getD env.maxEpochs)

/-- The estimator state relevant to initialization: whether
`self.initialized_` holds, and how many times `initialize()` ran (each
run re-creates the module, i.e. resets learned parameters). -/
structure NetState where
  initialized : Bool
  initCount : Nat
deriving DecidableEq, Repr

/-- `self.initialize()`. -/
def initializeNet (s : NetState) : NetState :=
  { initialized := true, initCount := s.initCount + 1 }

/-- `BaseDANetwork.partial_fit`: initialize only when not initialized,
notify `on_train_begin`, run the fit loop catching `KeyboardInterrupt`
only, notify `on_train_end`, return normally.  Any other exception
propagates before `on_train_end`. -/
def partial_fit (s : NetState) (env : FitEnv) :
    NetState × Trace × Except PyError Unit :=
  let s1 := if s.initialized then s else initializeNet s
  match fit_loop env none with
  | (tr, Except.ok _) =>
      (s1, TraceItem.ev Event.onTrainBegin :: (tr ++ [TraceItem.ev Event.onTrainEnd]),
       Except.ok ())
  | (tr, Except.error PyError.keyboardInterrupt) =>
      (s1, TraceItem.ev Event.onTrainBegin :: (tr ++ [TraceItem.ev Event.onTrainEnd]),
       Except.ok ())
  | (tr, Except.error e) =>
      (s1, TraceItem.ev Event.onTrainBegin :: tr, Except.error e)

/-- `BaseDANetwork.fit`: `if not self.warm_start or not self.initialized_:
self.initialize()`, then delegate to `partial_fit`. -/
def fit (s : NetState) (warmStart : Bool) (env : FitEnv) :
    NetState × Trace × Except PyError Unit :=
  let s1 := if warmStart && s.initialized then s else initializeNet s
  partial_fit s1 env

/-! ## Trace observations -/

/-- The `step_fn` invocations of a trace, as (source batch, target batch)
pairs, in order. -/
def stepCalls : Trace → List (Batch × Batch)
  | [] => []
  | TraceItem.stepCall b bt :: rest => (b, bt) :: stepCalls rest
  | _ :: rest => stepCalls rest

/-- The epoch-level history records of a trace, in order. -/
def epochRecs : Trace → List (String × Nat)
  | [] => []
  | TraceItem.recEpoch n v :: rest => (n, v) :: epochRecs rest
  | _ :: rest => epochRecs rest

/-- The batch-level history records of a trace, in order. -/
def batchRecs : Trace → List (String × Int)
  | [] => []
  | TraceItem.recBatch n v :: rest => (n, v) :: batchRecs rest
  | _ :: rest => batchRecs rest

/-- The four batch-level records that one processed training batch
contributes to the history. -/
def batchRecsOf (pre : String) (b : Batch) (step : StepResult) :
    List (String × Int) :=
  [(pre ++ "_loss", step.loss),
   (pre ++ "_loss_classif", step.loss_classif),
   (pre ++ "_loss_da", step.loss_da),
   (pre ++ "_batch_size", Int.ofNat b.size)]

/-- Is the item the `on_train_end` notification? -/
def isTrainEndEv : TraceItem → Bool
  | TraceItem.ev Event.onTrainEnd => true
  | _ => false

/-- Is the item an `on_epoch_begin` notification? -/
def isEpochBeginEv : TraceItem → Bool
  | TraceItem.ev (Event.onEpochBegin _ _ _) => true
  | _ => false

/-- Is the item an `on_epoch_end` notification? -/
def isEpochEndEv : TraceItem → Bool
  | TraceItem.ev (Event.onEpochEnd _ _ _) => true
  | _ => false

/-- Is the item a batch-level record of the given name? -/
def isRecBatchNamed (n : String) : TraceItem → Bool
  | TraceItem.recBatch n' _ => n' == n
  | _ => false

/-- Is the item an epoch-level record of the given name? -/
def isRecEpochNamed (n : String) : TraceItem → Bool
  | TraceItem.recEpoch n' _ => n' == n
  | _ => false

/-- Batch-level items: everything a pass's loop body may emit.  The
passes never emit train-level or epoch-level notifications. -/
def isBatchLevel : TraceItem → Bool
  | TraceItem.ev Event.onTrainBegin => false
  | TraceItem.ev Event.onTrainEnd => false
  | TraceItem.ev (Event.onEpochBegin _ _ _) => false
  | TraceItem.ev (Event.onEpochEnd _ _ _) => false
  | _ => true

/-! ## Concrete scenarios from the specification -/

/-- A step function that never raises. -/
def okStep (f : Batch → Batch → StepResult) :
    Batch → Batch → Except PyError StepResult :=
  fun b bt => Except.ok (f b bt)

/-- A fixed Step Result for scenario runs. -/
def constStepRes : StepResult := ⟨0, 0, 0⟩

/-- A step function returning a fixed Step Result. -/
def constStepFn : Batch → Batch → Except PyError StepResult :=
  okStep fun _ _ => constStepRes

/-- Source loader of 10 examples batched at 4: sizes 4, 4, 2. -/
def src442 : List Batch := [⟨0, 4⟩, ⟨1, 4⟩, ⟨2, 2⟩]

/-- Target loader of 10 examples batched at 5: sizes 5, 5. -/
def tgt55 : List Batch := [⟨10, 5⟩, ⟨11, 5⟩]

/-- Target loader of 10 examples batched at 4: sizes 4, 4, 2. -/
def tgt442 : List Batch := [⟨20, 4⟩, ⟨21, 4⟩, ⟨22, 2⟩]

/-- A fit environment with matched loaders (sizes 4,4,2 on both sides),
no validation split, `max_epochs = 2`. -/
def envMatched : FitEnv :=
  { datasetTrain := 0, datasetTarget := 1, datasetValid := none,
    iteratorTrain := src442, iteratorTarget := tgt442,
    iteratorValid := none,
    stepFn := constStepFn,
    validStepFn := fun _ => Except.ok constStepRes,
    maxEpochs := 2 }

/-- Like `envMatched` but the step function raises `KeyboardInterrupt`
on the second source batch (mid-epoch interrupt). -/
def envInterrupt : FitEnv :=
  { envMatched with
    stepFn := fun b _ =>
      if b.bid == 1 then Except.error PyError.keyboardInterrupt
      else Except.ok constStepRes,
    maxEpochs := 1 }

/-- Like `envMatched` but the target loader yields no batches at all. -/
def envEmptyTarget : FitEnv :=
  { envMatched with iteratorTarget := [], maxEpochs := 1 }

/-! ## Lemmas on the activation map -/

theorem mapGet_mapSet (m : ActMap) (k k' : String) (v : ActVal) :
    mapGet (mapSet m k v) k' = if k = k' then some v else mapGet m k' := by
  induction m with
  | nil =>
    by_cases h : k = k' <;> simp [mapSet, mapGet, h]
  | cons p rest ih =>
    obtain ⟨k0, v0⟩ := p
    by_cases h0 : k0 = k
    · subst h0
      by_cases h : k0 = k' <;> simp [mapSet, mapGet, h]
    · by_cases h : k = k'
      · subst h
        simp [mapSet, mapGet, h0, ih, if_neg (Ne.symm h0)]
      · by_cases h1 : k0 = k' <;>
          simp [mapSet, mapGet, h0, ih, h, h1, Ne.symm h]

theorem mapGet_inferHooks (L : List String) (m : ActMap) (v : ActVal)
    (ln : String) :
    mapGet (inferHooks L m v) ln =
      if ln ∈ L then some v else mapGet m ln := by
  induction L generalizing m with
  | nil => simp [inferHooks]
  | cons a rest ih =>
    simp only [inferHooks, ih, mapGet_mapSet, List.mem_cons]
    by_cases hm : ln ∈ rest
    · simp [hm]
    · by_cases ha : a = ln
      · simp [hm, ha]
      · simp [hm, ha, Ne.symm ha]

theorem embedd_of_infer (L : List String) (m : ActMap) (v : ActVal) :
    L.map (mapGet (inferHooks L m v)) = L.map (fun _ => some v) := by
  apply List.map_congr_left
  intro ln hln
  rw [mapGet_inferHooks]
  simp [hln]

theorem embedd_target_of_infer (L : List String) (m : ActMap) (v w : ActVal) :
    L.map (mapGet (inferHooks L (inferHooks L m v) w)) =
      L.map (fun _ => some w) :=
  embedd_of_infer L (inferHooks L m v) w

/-- The Step Result of `train_step_single` does not depend on the incoming
activation map: every declared layer is overwritten before it is read. -/
def singleRes (L : List String) (lf : LossFn) (b bt : Batch) : StepResult :=
  (train_step_single L lf [] b bt).result

theorem train_step_single_result_indep (L : List String) (lf : LossFn)
    (m : ActMap) (b bt : Batch) :
    (train_step_single L lf m b bt).result = singleRes L lf b bt := by
  unfold singleRes train_step_single
  simp only [embedd_of_infer, embedd_target_of_infer]

/-- Claim C4: in `train_step_single` the source embeddings are snapshotted
from the Intermediate Activation Map after the source forward pass and
strictly before the target forward pass, so the embeddings handed to the
loss contract as source embeddings are source-derived and those handed as
target embeddings are target-derived; after the call the activation map
holds a target-derived value for every declared layer, never a mix. -/
theorem step_single_embedding_domains (L : List String) (lf : LossFn)
    (m : ActMap) (b bt : Batch) :
    (train_step_single L lf m b bt).embedd =
        L.map (fun _ => some ⟨Domain.source, b.bid⟩)
    ∧ (train_step_single L lf m b bt).embedd_target =
        L.map (fun _ => some ⟨Domain.target, bt.bid⟩)
    ∧ ∀ ln, ln ∈ L →
        mapGet (train_step_single L lf m b bt).actMap ln =
          some ⟨Domain.target, bt.bid⟩ := by
  refine ⟨?_, ?_, ?_⟩
  · unfold train_step_single
    simpa using embedd_of_infer L m ⟨Domain.source, b.bid⟩
  · unfold train_step_single
    simpa using
      embedd_target_of_infer L m ⟨Domain.source, b.bid⟩ ⟨Domain.target, bt.bid⟩
  · intro ln hln
    unfold train_step_single
    simp only
    rw [mapGet_inferHooks]
    simp [hln]

/-- Witness for C4: a concrete module with one declared layer "feat". -/
theorem step_single_embedding_domains_witness :
    "feat" ∈ ["feat"]
    ∧ mapGet
        (train_step_single ["feat"] (fun _ _ _ _ => (0, 0, 0))
          [("feat", ⟨Domain.source, 9⟩)] ⟨1, 4⟩ ⟨2, 4⟩).actMap "feat" =
        some ⟨Domain.target, 2⟩ :=
  ⟨by decide,
   (step_single_embedding_domains ["feat"] (fun _ _ _ _ => (0, 0, 0))
      [("feat", ⟨Domain.source, 9⟩)] ⟨1, 4⟩ ⟨2, 4⟩).2.2 "feat" (by decide)⟩

/-! ## Lemmas on the training pass -/

theorem stepCalls_append (l1 l2 : Trace) :
    stepCalls (l1 ++ l2) = stepCalls l1 ++ stepCalls l2 := by
  induction l1 with
  | nil => rfl
  | cons it rest ih => cases it <;> simp [stepCalls, ih]

theorem epochRecs_append (l1 l2 : Trace) :
    epochRecs (l1 ++ l2) = epochRecs l1 ++ epochRecs l2 := by
  induction l1 with
  | nil => rfl
  | cons it rest ih => cases it <;> simp [epochRecs, ih]

theorem batchRecs_append (l1 l2 : Trace) :
    batchRecs (l1 ++ l2) = batchRecs l1 ++ batchRecs l2 := by
  induction l1 with
  | nil => rfl
  | cons it rest ih => cases it <;> simp [batchRecs, ih]

theorem stepCalls_trainBatchBlock (pre : String) (b bt : Batch)
    (s : StepResult) : stepCalls (trainBatchBlock pre b bt s) = [(b, bt)] := by
  simp [trainBatchBlock, stepCalls]

theorem epochRecs_trainBatchBlock (pre : String) (b bt : Batch)
    (s : StepResult) : epochRecs (trainBatchBlock pre b bt s) = [] := by
  simp [trainBatchBlock, epochRecs]

theorem batchRecs_trainBatchBlock (pre : String) (b bt : Batch)
    (s : StepResult) :
    batchRecs (trainBatchBlock pre b bt s) = batchRecsOf pre b s := by
  simp [trainBatchBlock, batchRecs, batchRecsOf]

/-- The batches of the training pass that get processed before the first
size mismatch against the (always re-drawn) first target batch. -/
def processedSrc (srcs : List Batch) (t : Batch) : List Batch :=
  srcs.takeWhile fun b => b.size == t.size

/-- Characterization of the training loop body under a non-raising step
function: the trace is the concatenation of the per-batch blocks of the
processed prefix, and the final count adds the prefix length. -/
theorem trainPassLoop_ok (f : Batch → Batch → StepResult) (pre : String)
    (t : Batch) (rest : List Batch) :
    ∀ (srcs : List Batch) (count : Nat),
      trainPassLoop (okStep f) pre (t :: rest) srcs count =
        (((processedSrc srcs t).map fun b => trainBatchBlock pre b t (f b t)).flatten,
         Except.ok (count + (processedSrc srcs t).length)) := by
  intro srcs
  induction srcs with
  | nil => intro count; simp [trainPassLoop, processedSrc]
  | cons b srcs' ih =>
    intro count
    by_cases h : b.size = t.size
    · have hbeq : (b.size == t.size) = true := by simp [h]
      simp only [trainPassLoop, okStep, processedSrc, List.takeWhile_cons, hbeq,
        if_neg (by simp [h] : ¬b.size ≠ t.size)]
      rw [show (trainPassLoop (okStep f) pre (t :: rest) srcs' (count + 1)) =
        _ from ih (count + 1)]
      simp only [processedSrc, List.map_cons, List.flatten_cons,
        List.length_cons, Prod.mk.injEq, Except.ok.injEq, if_pos trivial]
      exact ⟨trivial, by omega⟩
    · have hbeq : (b.size == t.size) = false := by simp [h]
      simp [trainPassLoop, processedSrc, List.takeWhile_cons, hbeq,
        if_pos (by simp [h] : b.size ≠ t.size)]

/-- Characterization of the whole training pass under a non-raising step
function and a nonempty target loader. -/
theorem runSingleEpochTrain_ok (f : Batch → Batch → StepResult)
    (pre : String) (t : Batch) (rest srcs : List Batch) :
    runSingleEpochTrain (okStep f) pre srcs (t :: rest) =
      (((processedSrc srcs t).map fun b => trainBatchBlock pre b t (f b t)).flatten
         ++ [TraceItem.recEpoch (pre ++ "_batch_count")
              (processedSrc srcs t).length],
       Except.ok ()) := by
  unfold runSingleEpochTrain
  rw [trainPassLoop_ok f pre t rest srcs 0]
  simp

theorem stepCalls_blocks (pre : String) (t : Batch)
    (f : Batch → Batch → StepResult) :
    ∀ l : List Batch,
      stepCalls ((l.map fun b => trainBatchBlock pre b t (f b t)).flatten) =
        l.map fun b => (b, t) := by
  intro l
  induction l with
  | nil => rfl
  | cons b l' ih =>
    simp only [List.map_cons, List.flatten_cons, stepCalls_append,
      stepCalls_trainBatchBlock, ih, List.singleton_append]

theorem epochRecs_blocks (pre : String) (t : Batch)
    (f : Batch → Batch → StepResult) :
    ∀ l : List Batch,
      epochRecs ((l.map fun b => trainBatchBlock pre b t (f b t)).flatten) = [] := by
  intro l
  induction l with
  | nil => rfl
  | cons b l' ih =>
    simp only [List.map_cons, List.flatten_cons, epochRecs_append,
      epochRecs_trainBatchBlock, ih, List.nil_append]

theorem batchRecs_blocks (pre : String) (t : Batch)
    (f : Batch → Batch → StepResult) :
    ∀ l : List Batch,
      batchRecs ((l.map fun b => trainBatchBlock pre b t (f b t)).flatten) =
        (l.map fun b => batchRecsOf pre b (f b t)).flatten := by
  intro l
  induction l with
  | nil => rfl
  | cons b l' ih =>
    simp only [List.map_cons, List.flatten_cons, batchRecs_append,
      batchRecs_trainBatchBlock, ih]

/-- Claim C1: when a drawn source batch and its paired target batch differ
in example count, the training pass stops for the remainder of that epoch:
the mismatched pairing is never stepped, no batch-level metrics are
recorded for it, and the recorded `train_batch_count` equals exactly the
number of batches processed before the mismatch. -/
theorem mismatch_terminates_training_pass
    (f : Batch → Batch → StepResult) (t : Batch) (rest srcs : List Batch)
    (hmis : (processedSrc srcs t).length < srcs.length) :
    (runSingleEpochTrain (okStep f) "train" srcs (t :: rest)).2 = Except.ok ()
    ∧ stepCalls (runSingleEpochTrain (okStep f) "train" srcs (t :: rest)).1 =
        (processedSrc srcs t).map (fun b => (b, t))
    ∧ batchRecs (runSingleEpochTrain (okStep f) "train" srcs (t :: rest)).1 =
        ((processedSrc srcs t).map fun b => batchRecsOf "train" b (f b t)).flatten
    ∧ epochRecs (runSingleEpochTrain (okStep f) "train" srcs (t :: rest)).1 =
        [("train_batch_count", (processedSrc srcs t).length)]
    ∧ (processedSrc srcs t).length < srcs.length := by
  rw [runSingleEpochTrain_ok]
  refine ⟨rfl, ?_, ?_, ?_, hmis⟩
  · simp only [stepCalls_append, stepCalls_blocks, stepCalls]
    simp
  · simp only [batchRecs_append, batchRecs_blocks, batchRecs]
    simp
  · simp only [epochRecs_append, epochRecs_blocks, epochRecs]
    simp

/-- Witness for C1: source sizes 4, 4, 2, target sizes 4, 4, 2 — the
mismatch (third source batch of size 2 against the first target batch of
size 4) stops the pass after 2 processed batches. -/
theorem mismatch_terminates_training_pass_witness :
    (processedSrc src442 ⟨20, 4⟩).length < src442.length
    ∧ epochRecs
        (runSingleEpochTrain (okStep fun _ _ => constStepRes) "train" src442
          (⟨20, 4⟩ :: [⟨21, 4⟩, ⟨22, 2⟩])).1 =
        [("train_batch_count", (processedSrc src442 ⟨20, 4⟩).length)] :=
  ⟨by decide,
   (mismatch_terminates_training_pass (fun _ _ => constStepRes) ⟨20, 4⟩
      [⟨21, 4⟩, ⟨22, 2⟩] src442 (by decide)).2.2.2.1⟩

/-- Counterexample to claim C2: with source batches of sizes 4, 4, 2 and
target batches of sizes 5, 5, the very first pairing (4 vs 5) already
mismatches, so the pass processes 0 batches — not 1 — and records
`train_batch_count == 0`, not 1. -/
theorem scenario_442_55_counterexample :
    stepCalls (runSingleEpochTrain constStepFn "train" src442 tgt55).1 = []
    ∧ epochRecs (runSingleEpochTrain constStepFn "train" src442 tgt55).1 =
        [("train_batch_count", 0)]
    ∧ epochRecs (runSingleEpochTrain constStepFn "train" src442 tgt55).1 ≠
        [("train_batch_count", 1)]
    ∧ (stepCalls (runSingleEpochTrain constStepFn "train" src442 tgt55).1).length
        ≠ 1 := by
  refine ⟨by decide, by decide, by decide, by decide⟩

/-- Claim C2 as amended: with source sizes 4, 4, 2 and target sizes 5, 5
the 4-vs-5 mismatch occurs on the very first pairing, before any batch is
stepped, so the pass processes exactly 0 batches, records no batch-level
metric at all, and records `train_batch_count == 0`. -/
theorem scenario_442_55_amended :
    runSingleEpochTrain constStepFn "train" src442 tgt55 =
      ([TraceItem.recEpoch "train_batch_count" 0], Except.ok ()) := by
  rfl

/-- Claim C3: in the training pass every paired target batch is drawn from
a fresh iteration handle over the target iterator, so every step pairs its
source batch with the first batch of the target iterator (and target
batches therefore repeat across source batches within an epoch). -/
theorem fresh_target_cursor_pairs_head
    (stepFn : Batch → Batch → Except PyError StepResult) (pre : String)
    (srcs tgt : List Batch) (p : Batch × Batch)
    (hp : p ∈ stepCalls (runSingleEpochTrain stepFn pre srcs tgt).1) :
    tgt.head? = some p.2 := by
  match tgt with
  | [] =>
    exfalso
    match srcs with
    | [] => simp [runSingleEpochTrain, trainPassLoop, stepCalls] at hp
    | b :: rest => simp [runSingleEpochTrain, trainPassLoop, stepCalls] at hp
  | t :: rest =>
    simp only [List.head?_cons, Option.some.injEq]
    symm
    have key : ∀ (srcs' : List Batch) (count : Nat),
        p ∈ stepCalls (trainPassLoop stepFn pre (t :: rest) srcs' count).1 →
        p.2 = t := by
      intro srcs'
      induction srcs' with
      | nil => intro count hmem; simp [trainPassLoop, stepCalls] at hmem
      | cons b srcs'' ih =>
        intro count hmem
        by_cases h : b.size = t.size
        · rw [show trainPassLoop stepFn pre (t :: rest) (b :: srcs'') count =
              _ from rfl] at hmem
          simp only [trainPassLoop, if_neg (by simp [h] : ¬b.size ≠ t.size)]
            at hmem
          match hsf : stepFn b t with
          | Except.error e =>
            rw [hsf] at hmem
            simp [stepCalls] at hmem
            rw [hmem]
          | Except.ok s =>
            rw [hsf] at hmem
            simp only [stepCalls_append, stepCalls_trainBatchBlock,
              List.mem_append, List.mem_singleton] at hmem
            rcases hmem with hmem | hmem
            · rw [hmem]
            · exact ih (count + 1) hmem
        · simp only [trainPassLoop, if_pos (by simp [h] : b.size ≠ t.size)]
            at hmem
          simp [stepCalls] at hmem
    rcases hres : trainPassLoop stepFn pre (t :: rest) srcs 0 with ⟨tr, r⟩
    cases r with
    | ok count =>
      apply key srcs 0
      rw [hres]
      revert hp
      simp [runSingleEpochTrain, hres, stepCalls_append, stepCalls]
    | error e =>
      apply key srcs 0
      rw [hres]
      revert hp
      simp [runSingleEpochTrain, hres]

/-- Witness for C3: in the matched 4,4,2 scenario the second processed
source batch is still paired with the first target batch. -/
theorem fresh_target_cursor_pairs_head_witness :
    (⟨1, 4⟩, ⟨20, 4⟩) ∈
      stepCalls (runSingleEpochTrain constStepFn "train" src442 tgt442).1
    ∧ tgt442.head? = some ⟨20, 4⟩ :=
  ⟨by decide,
   fresh_target_cursor_pairs_head constStepFn "train" src442 tgt442
     (⟨1, 4⟩, ⟨20, 4⟩) (by decide)⟩

/-- Counterexample to claim C8's scenario: with source and target loaders
both yielding sizes 4, 4, 2, each source batch is paired with a fresh
target cursor's first batch (size 4), so the third pairing is 2 vs 4 and
the pass stops: `train_batch_count` is 2, not 3, and the history holds 2
`train_loss` batch entries, not 3. -/
theorem scenario_442_442_counterexample :
    epochRecs (runSingleEpochTrain constStepFn "train" src442 tgt442).1 =
        [("train_batch_count", 2)]
    ∧ (runSingleEpochTrain constStepFn "train" src442 tgt442).1.countP
        (isRecBatchNamed "train_loss") = 2
    ∧ epochRecs (runSingleEpochTrain constStepFn "train" src442 tgt442).1 ≠
        [("train_batch_count", 3)]
    ∧ (runSingleEpochTrain constStepFn "train" src442 tgt442).1.countP
        (isRecBatchNamed "train_loss") ≠ 3 := by
  refine ⟨by decide, by decide, by decide, by decide⟩

/-- Claim C8 as amended: for each processed training batch the pass
notifies `on_batch_begin`, executes the step function, records exactly the
four scalars loss, classification loss, domain loss and batch size under
the "train_" prefix, then notifies `on_batch_end` with the Step Result,
and records the train batch count once at pass end; in the 4,4,2 vs 4,4,2
scenario the fresh target cursor makes the third pairing mismatch (2 vs
4), so `train_batch_count == 2` and the history holds exactly 2
"train_loss" batch entries plus 1 "train_batch_count" epoch entry. -/
theorem train_pass_recording_amended :
    (∀ (f : Batch → Batch → StepResult) (t : Batch) (rest srcs : List Batch),
      runSingleEpochTrain (okStep f) "train" srcs (t :: rest) =
        (((processedSrc srcs t).map fun b =>
            trainBatchBlock "train" b t (f b t)).flatten
           ++ [TraceItem.recEpoch "train_batch_count"
                (processedSrc srcs t).length],
         Except.ok ()))
    ∧ epochRecs (runSingleEpochTrain constStepFn "train" src442 tgt442).1 =
        [("train_batch_count", 2)]
    ∧ (runSingleEpochTrain constStepFn "train" src442 tgt442).1.countP
        (isRecBatchNamed "train_loss") = 2
    ∧ (runSingleEpochTrain constStepFn "train" src442 tgt442).1.countP
        (isRecEpochNamed "train_batch_count") = 1 := by
  refine ⟨?_, by decide, by decide, by decide⟩
  intro f t rest srcs
  exact runSingleEpochTrain_ok f "train" t rest srcs

/-! ## Lemmas on the optimizer driver -/

theorem stepOptimizer_trace {σ : Type} (L : List String)
    (lossFnAt : Nat → LossFn) (params : Nat) (acc : Accumulator σ)
    (b bt : Batch) :
    ∀ (k i : Nat) (st : σ) (m : ActMap),
      (stepOptimizer L lossFnAt params acc b bt i k st m).trace =
        (List.replicate k
          [TraceItem.zeroGrad,
           TraceItem.ev (Event.onGradComputed params b)]).flatten := by
  intro k
  induction k with
  | zero => intro i st m; rfl
  | succ n ih =>
    intro i st m
    simp only [stepOptimizer, ih, List.replicate_succ, List.flatten_cons]
    rfl

theorem stepOptimizer_losses {σ : Type} (L : List String)
    (lossFnAt : Nat → LossFn) (params : Nat) (acc : Accumulator σ)
    (b bt : Batch) :
    ∀ (k i : Nat) (st : σ) (m : ActMap),
      (stepOptimizer L lossFnAt params acc b bt i k st m).closureLosses =
        ((List.range k).map fun j => (singleRes L (lossFnAt (i + j)) b bt).loss) := by
  intro k
  induction k with
  | zero => intro i st m; rfl
  | succ n ih =>
    intro i st m
    simp only [stepOptimizer, ih, List.range_succ_eq_map, List.map_cons,
      List.map_map, Nat.add_zero, List.cons.injEq]
    refine ⟨?_, ?_⟩
    · rw [train_step_single_result_indep]
    · apply List.map_congr_left
      intro j hj
      simp only [Function.comp_apply]
      rw [show i + 1 + j = i + j.succ from by omega]

theorem stepOptimizer_acc {σ : Type} (L : List String)
    (lossFnAt : Nat → LossFn) (params : Nat) (acc : Accumulator σ)
    (b bt : Batch) :
    ∀ (k i : Nat) (st : σ) (m : ActMap),
      (stepOptimizer L lossFnAt params acc b bt i k st m).accState =
        (((List.range k).map fun j => singleRes L (lossFnAt (i + j)) b bt).foldl
          acc.store st) := by
  intro k
  induction k with
  | zero => intro i st m; rfl
  | succ n ih =>
    intro i st m
    simp only [stepOptimizer, ih, List.range_succ_eq_map, List.map_cons,
      List.map_map, List.foldl_cons, Nat.add_zero]
    rw [train_step_single_result_indep]
    have hl : List.map (fun j => singleRes L (lossFnAt (i + 1 + j)) b bt)
          (List.range n) =
        List.map ((fun j => singleRes L (lossFnAt (i + j)) b bt) ∘ Nat.succ)
          (List.range n) := by
      apply List.map_congr_left
      intro j hj
      simp only [Function.comp_apply]
      rw [show i + 1 + j = i + j.succ from by omega]
    rw [hl]

/-- Claim C5: `train_step` clears the accumulated gradients and hands the
optimizer's step routine a zero-argument closure that runs the Step
Executor, stores the Step Result into the step accumulator, notifies
`on_grad_computed` with the learnable-parameter snapshot and the batch,
and returns the scalar total loss; for every optimizer — also ones that
re-evaluate the closure `k > 1` times — `train_step` returns the Step
Result the accumulator holds after the last invocation it recorded (for
an accumulator that records every invocation, the last invocation's
result). -/
theorem train_step_driver_contract {σ : Type} (L : List String)
    (lossFnAt : Nat → LossFn) (params : Nat) (acc : Accumulator σ)
    (k : Nat) (m : ActMap) (b bt : Batch) (d : StepResult) (hk : 0 < k) :
    (train_step L lossFnAt params acc k m b bt).trace =
      (List.replicate k
        [TraceItem.zeroGrad,
         TraceItem.ev (Event.onGradComputed params b)]).flatten
    ∧ (train_step L lossFnAt params acc k m b bt).closureLosses =
        ((List.range k).map fun i => (singleRes L (lossFnAt i) b bt).loss)
    ∧ (train_step L lossFnAt params acc k m b bt).result =
        acc.get (((List.range k).map fun i =>
          singleRes L (lossFnAt i) b bt).foldl acc.store acc.init)
    ∧ (train_step L lossFnAt params (lastStepAccumulator d) k m b bt).result =
        singleRes L (lossFnAt (k - 1)) b bt := by
  refine ⟨?_, ?_, ?_, ?_⟩
  · unfold train_step
    exact stepOptimizer_trace L lossFnAt params acc b bt k 0 acc.init m
  · unfold train_step
    simpa using stepOptimizer_losses L lossFnAt params acc b bt k 0 acc.init m
  · unfold train_step
    simp only
    rw [stepOptimizer_acc L lossFnAt params acc b bt k 0 acc.init m]
    simp
  · obtain ⟨n, rfl⟩ : ∃ n, k = n + 1 :=
      ⟨k - 1, (Nat.succ_pred_eq_of_pos hk).symm⟩
    unfold train_step
    simp only
    rw [stepOptimizer_acc L lossFnAt params (lastStepAccumulator d) b bt
      (n + 1) 0 (lastStepAccumulator d).init m]
    simp only [Nat.zero_add, List.range_succ, List.map_append, List.map_cons,
      List.map_nil, List.foldl_append, List.foldl_cons, List.foldl_nil]
    simp [lastStepAccumulator, Nat.add_sub_cancel]

/-- Witness for C5: a two-invocation optimizer with a last-step
accumulator over one declared layer. -/
theorem train_step_driver_contract_witness :
    0 < 2
    ∧ ((train_step ["feat"] (fun i _ _ _ _ => (Int.ofNat i, 0, 0)) 7
          (lastStepAccumulator ⟨5, 5, 5⟩) 2 [] ⟨1, 4⟩ ⟨2, 4⟩).trace =
        (List.replicate 2
          [TraceItem.zeroGrad,
           TraceItem.ev (Event.onGradComputed 7 ⟨1, 4⟩)]).flatten
      ∧ (train_step ["feat"] (fun i _ _ _ _ => (Int.ofNat i, 0, 0)) 7
          (lastStepAccumulator ⟨5, 5, 5⟩) 2 [] ⟨1, 4⟩ ⟨2, 4⟩).closureLosses =
          ((List.range 2).map fun i =>
            (singleRes ["feat"] (fun _ _ _ _ => (Int.ofNat i, 0, 0)) ⟨1, 4⟩ ⟨2, 4⟩).loss)
      ∧ (train_step ["feat"] (fun i _ _ _ _ => (Int.ofNat i, 0, 0)) 7
          (lastStepAccumulator ⟨5, 5, 5⟩) 2 [] ⟨1, 4⟩ ⟨2, 4⟩).result =
          (lastStepAccumulator ⟨5, 5, 5⟩).get
            (((List.range 2).map fun i =>
              singleRes ["feat"] (fun _ _ _ _ => (Int.ofNat i, 0, 0)) ⟨1, 4⟩ ⟨2, 4⟩).foldl
              (lastStepAccumulator ⟨5, 5, 5⟩).store (lastStepAccumulator ⟨5, 5, 5⟩).init)
      ∧ (train_step ["feat"] (fun i _ _ _ _ => (Int.ofNat i, 0, 0)) 7
          (lastStepAccumulator ⟨5, 5, 5⟩) 2 [] ⟨1, 4⟩ ⟨2, 4⟩).result =
          singleRes ["feat"] (fun _ _ _ _ => (Int.ofNat (2 - 1), 0, 0)) ⟨1, 4⟩ ⟨2, 4⟩) :=
  ⟨by decide,
   train_step_driver_contract ["feat"] (fun i _ _ _ _ => (Int.ofNat i, 0, 0)) 7
     (lastStepAccumulator ⟨5, 5, 5⟩) 2 [] ⟨1, 4⟩ ⟨2, 4⟩ ⟨5, 5, 5⟩ (by decide)⟩


/-! ## Lemmas on the fit loop -/

theorem trainPassLoop_batchLevel
    (stepFn : Batch → Batch → Except PyError StepResult) (pre : String)
    (tgt srcs : List Batch) :
    ∀ (count : Nat) (x : TraceItem),
      x ∈ (trainPassLoop stepFn pre tgt srcs count).1 →
      isBatchLevel x = true := by
  cases tgt with
  | nil =>
    intro count x hx
    cases srcs <;> simp [trainPassLoop] at hx
  | cons t ts =>
    induction srcs with
    | nil => intro count x hx; simp [trainPassLoop] at hx
    | cons b rest ih =>
      intro count x hx
      by_cases h : b.size = t.size
      · simp only [trainPassLoop, if_neg (by simp [h] : ¬b.size ≠ t.size)] at hx
        cases hsf : stepFn b t with
        | error e =>
          rw [hsf] at hx
          simp only [List.mem_cons, List.not_mem_nil, or_false] at hx
          rcases hx with rfl | rfl <;> rfl
        | ok st =>
          rw [hsf] at hx
          simp only [List.mem_append] at hx
          rcases hx with hx | hx
          · simp only [trainBatchBlock, List.mem_cons, List.not_mem_nil,
              or_false] at hx
            rcases hx with rfl | rfl | rfl | rfl | rfl | rfl | rfl <;> rfl
          · exact ih (count + 1) x hx
      · simp only [trainPassLoop, if_pos (by simp [h] : b.size ≠ t.size)] at hx
        simp at hx

theorem validPassLoop_batchLevel
    (stepFn : Batch → Except PyError StepResult) (pre : String)
    (l : List Batch) :
    ∀ (count : Nat) (x : TraceItem),
      x ∈ (validPassLoop stepFn pre l count).1 → isBatchLevel x = true := by
  induction l with
  | nil => intro count x hx; simp [validPassLoop] at hx
  | cons b rest ih =>
    intro count x hx
    cases hsf : stepFn b with
    | error e =>
      simp only [validPassLoop, hsf] at hx
      simp only [List.mem_singleton] at hx
      subst hx; rfl
    | ok st =>
      simp only [validPassLoop, hsf, List.mem_append] at hx
      rcases hx with hx | hx
      · simp only [validBatchBlock, List.mem_cons, List.not_mem_nil,
          or_false] at hx
        rcases hx with rfl | rfl | rfl | rfl <;> rfl
      · exact ih (count + 1) x hx

theorem runSingleEpochTrain_batchLevel
    (stepFn : Batch → Batch → Except PyError StepResult) (pre : String)
    (srcs tgt : List Batch) (x : TraceItem)
    (hx : x ∈ (runSingleEpochTrain stepFn pre srcs tgt).1) :
    isBatchLevel x = true := by
  unfold runSingleEpochTrain at hx
  rcases hres : trainPassLoop stepFn pre tgt srcs 0 with ⟨tr, r⟩
  rw [hres] at hx
  cases r with
  | ok count =>
    simp only [List.mem_append, List.mem_singleton] at hx
    rcases hx with hx | rfl
    · exact trainPassLoop_batchLevel stepFn pre tgt srcs 0 x (hres ▸ hx)
    · rfl
  | error e =>
    exact trainPassLoop_batchLevel stepFn pre tgt srcs 0 x (hres ▸ hx)

theorem runSingleEpochValid_batchLevel
    (stepFn : Batch → Except PyError StepResult) (pre : String)
    (iterator : Option (List Batch)) (x : TraceItem)
    (hx : x ∈ (runSingleEpochValid stepFn pre iterator).1) :
    isBatchLevel x = true := by
  cases iterator with
  | none => simp [runSingleEpochValid] at hx
  | some l =>
    rcases hres : validPassLoop stepFn pre l 0 with ⟨tr, r⟩
    cases r with
    | ok count =>
      simp only [runSingleEpochValid, hres, List.mem_append,
        List.mem_singleton] at hx
      rcases hx with hx | rfl
      · exact validPassLoop_batchLevel stepFn pre l 0 x (by rw [hres]; exact hx)
      · rfl
    | error e =>
      simp only [runSingleEpochValid, hres] at hx
      exact validPassLoop_batchLevel stepFn pre l 0 x (by rw [hres]; exact hx)

theorem batchLevel_not_pass_event (x : TraceItem)
    (h : isBatchLevel x = true) :
    isTrainEndEv x = false ∧ isEpochBeginEv x = false
    ∧ isEpochEndEv x = false := by
  cases x with
  | ev e =>
    cases e <;> simp_all [isBatchLevel, isTrainEndEv, isEpochBeginEv,
      isEpochEndEv]
  | stepCall b bt => exact ⟨rfl, rfl, rfl⟩
  | zeroGrad => exact ⟨rfl, rfl, rfl⟩
  | recBatch n v => exact ⟨rfl, rfl, rfl⟩
  | recEpoch n v => exact ⟨rfl, rfl, rfl⟩

theorem epochBody_countP_trainEnd (env : FitEnv) :
    ((epochBody env).1).countP isTrainEndEv = 0 := by
  rw [List.countP_eq_zero]
  intro x hx
  unfold epochBody at hx
  rcases hT : runSingleEpochTrain env.stepFn "train" env.iteratorTrain
      env.iteratorTarget with ⟨trT, rT⟩
  rw [hT] at hx
  cases rT with
  | error e =>
    simp only [List.cons_append, List.nil_append, List.mem_cons] at hx
    rcases hx with rfl | hx
    · simp [isTrainEndEv]
    · have := (batchLevel_not_pass_event x
        (runSingleEpochTrain_batchLevel env.stepFn "train" env.iteratorTrain
          env.iteratorTarget x (hT ▸ hx))).1
      simp [this]
  | ok u =>
    rcases hV : runSingleEpochValid env.validStepFn "valid" env.iteratorValid
        with ⟨trV, rV⟩
    rw [hV] at hx
    have hmemT : ∀ y ∈ trT, isTrainEndEv y = false := fun y hy =>
      (batchLevel_not_pass_event y
        (runSingleEpochTrain_batchLevel env.stepFn "train" env.iteratorTrain
          env.iteratorTarget y (hT ▸ hy))).1
    have hmemV : ∀ y ∈ trV, isTrainEndEv y = false := fun y hy =>
      (batchLevel_not_pass_event y
        (runSingleEpochValid_batchLevel env.validStepFn "valid"
          env.iteratorValid y (hV ▸ hy))).1
    cases rV with
    | error e =>
      simp only [List.cons_append, List.nil_append, List.mem_cons,
        List.mem_append] at hx
      rcases hx with rfl | hx | hx
      · simp [isTrainEndEv]
      · simp [hmemT x hx]
      · simp [hmemV x hx]
    | ok v =>
      simp only [List.cons_append, List.nil_append, List.mem_cons,
        List.mem_append, List.mem_singleton, List.not_mem_nil, or_false] at hx
      rcases hx with rfl | (hx | hx) | rfl
      · simp [isTrainEndEv]
      · simp [hmemT x hx]
      · simp [hmemV x hx]
      · simp [isTrainEndEv]

theorem fitLoopEpochs_countP_trainEnd (env : FitEnv) :
    ∀ n, ((fitLoopEpochs env n).1).countP isTrainEndEv = 0 := by
  intro n
  induction n with
  | zero => rfl
  | succ k ih =>
    unfold fitLoopEpochs
    rcases hE : epochBody env with ⟨tr, r⟩
    have htr : tr.countP isTrainEndEv = 0 := by
      have := epochBody_countP_trainEnd env
      rw [hE] at this
      exact this
    cases r with
    | error e => simpa using htr
    | ok u => simp [List.countP_append, htr, ih]

/-- Claim C6: a `KeyboardInterrupt` raised inside the fit loop during
`partial_fit` is caught at the top level and not re-raised: `partial_fit`
(and hence `fit`) returns normally and the `on_train_end` notification
still fires exactly once. -/
theorem interrupt_contained (s : NetState) (env : FitEnv)
    (hki : (fit_loop env none).2 = Except.error PyError.keyboardInterrupt) :
    (partial_fit s env).2.2 = Except.ok ()
    ∧ ((partial_fit s env).2.1).countP isTrainEndEv = 1
    ∧ (fit s false env).2.2 = Except.ok () := by
  rcases hres : fit_loop env none with ⟨tr, r⟩
  rw [hres] at hki
  simp only at hki
  subst hki
  have htr : tr.countP isTrainEndEv = 0 := by
    have := fitLoopEpochs_countP_trainEnd env (env.maxEpochs)
    have hfl : fit_loop env none = fitLoopEpochs env env.maxEpochs := rfl
    rw [hfl] at hres
    rw [hres] at this
    exact this
  refine ⟨?_, ?_, ?_⟩
  · simp [partial_fit, hres]
  · simp [partial_fit, hres, List.countP_cons, List.countP_append,
      isTrainEndEv, htr]
  · simp [fit, partial_fit, hres]

/-- Witness for C6: a step function raising `KeyboardInterrupt` on the
second source batch of the epoch. -/
theorem interrupt_contained_witness :
    (fit_loop envInterrupt none).2 = Except.error PyError.keyboardInterrupt
    ∧ ((partial_fit ⟨true, 3⟩ envInterrupt).2.2 = Except.ok ()
      ∧ ((partial_fit ⟨true, 3⟩ envInterrupt).2.1).countP isTrainEndEv = 1
      ∧ (fit ⟨true, 3⟩ false envInterrupt).2.2 = Except.ok ()) :=
  ⟨by rfl, interrupt_contained ⟨true, 3⟩ envInterrupt (by rfl)⟩

theorem partial_fit_state (s : NetState) (env : FitEnv) :
    (partial_fit s env).1 = if s.initialized then s else initializeNet s := by
  unfold partial_fit
  rcases hres : fit_loop env none with ⟨tr, r⟩
  cases r with
  | ok u => simp
  | error e => cases e <;> simp

/-- Claim C7: `partial_fit` initializes the module only when it is not
already initialized (a second `partial_fit` does not reset learned
parameters), while `fit` forces a fresh initialization unless warm-start
mode is active and the estimator is already initialized — and exactly one
initialization happens in that case — and then delegates to
`partial_fit`. -/
theorem warm_start_initialization (s : NetState) (env : FitEnv) :
    ((partial_fit s env).1 = if s.initialized then s else initializeNet s)
    ∧ ((partial_fit s env).1.initCount =
        if s.initialized then s.initCount else s.initCount + 1)
    ∧ ((fit s false env).1.initCount = s.initCount + 1)
    ∧ ((fit s true env).1.initCount =
        if s.initialized then s.initCount else s.initCount + 1)
    ∧ (∀ w, fit s w env =
        partial_fit (if w && s.initialized then s else initializeNet s) env) := by
  refine ⟨partial_fit_state s env, ?_, ?_, ?_, ?_⟩
  · by_cases h : s.initialized <;> simp [partial_fit_state, h, initializeNet]
  · simp [fit, partial_fit_state, initializeNet]
  · by_cases h : s.initialized <;>
      simp [fit, partial_fit_state, h, initializeNet]
  · intro w
    rfl

/-! ## Lemmas for the epoch loop shape -/

theorem countP_flatten_replicate (p : TraceItem → Bool) (l : Trace) :
    ∀ n, ((List.replicate n l).flatten).countP p = n * l.countP p := by
  intro n
  induction n with
  | zero => simp
  | succ k ih =>
    simp only [List.replicate_succ, List.flatten_cons, List.countP_append, ih]
    ring

theorem epochBody_ok (env : FitEnv)
    (hT : (runSingleEpochTrain env.stepFn "train" env.iteratorTrain
      env.iteratorTarget).2 = Except.ok ())
    (hV : (runSingleEpochValid env.validStepFn "valid"
      env.iteratorValid).2 = Except.ok ()) :
    epochBody env =
      (TraceItem.ev (Event.onEpochBegin env.datasetTrain env.datasetTarget
          env.datasetValid)
        :: ((runSingleEpochTrain env.stepFn "train" env.iteratorTrain
              env.iteratorTarget).1
           ++ (runSingleEpochValid env.validStepFn "valid"
              env.iteratorValid).1
           ++ [TraceItem.ev (Event.onEpochEnd env.datasetTrain
                env.datasetTarget env.datasetValid)]),
       Except.ok ()) := by
  unfold epochBody
  rcases hTres : runSingleEpochTrain env.stepFn "train" env.iteratorTrain
      env.iteratorTarget with ⟨trT, rT⟩
  rw [hTres] at hT
  simp only at hT
  subst hT
  rcases hVres : runSingleEpochValid env.validStepFn "valid"
      env.iteratorValid with ⟨trV, rV⟩
  rw [hVres] at hV
  simp only at hV
  subst hV
  simp

theorem fitLoopEpochs_replicate (env : FitEnv)
    (hok : (epochBody env).2 = Except.ok ()) :
    ∀ n, fitLoopEpochs env n =
      ((List.replicate n (epochBody env).1).flatten, Except.ok ()) := by
  intro n
  induction n with
  | zero => rfl
  | succ k ih =>
    rcases hE : epochBody env with ⟨tr, r⟩
    rw [hE] at hok
    simp only at hok
    subst hok
    simp only [fitLoopEpochs, hE, ih, List.replicate_succ, List.flatten_cons]

theorem trainPass_countP_epochEv (env : FitEnv) :
    ((runSingleEpochTrain env.stepFn "train" env.iteratorTrain
        env.iteratorTarget).1).countP isEpochBeginEv = 0
    ∧ ((runSingleEpochTrain env.stepFn "train" env.iteratorTrain
        env.iteratorTarget).1).countP isEpochEndEv = 0
    ∧ ((runSingleEpochValid env.validStepFn "valid"
        env.iteratorValid).1).countP isEpochBeginEv = 0
    ∧ ((runSingleEpochValid env.validStepFn "valid"
        env.iteratorValid).1).countP isEpochEndEv = 0 := by
  refine ⟨?_, ?_, ?_, ?_⟩ <;> rw [List.countP_eq_zero] <;> intro x hx
  · simp [(batchLevel_not_pass_event x
      (runSingleEpochTrain_batchLevel env.stepFn "train" env.iteratorTrain
        env.iteratorTarget x hx)).2.1]
  · simp [(batchLevel_not_pass_event x
      (runSingleEpochTrain_batchLevel env.stepFn "train" env.iteratorTrain
        env.iteratorTarget x hx)).2.2]
  · simp [(batchLevel_not_pass_event x
      (runSingleEpochValid_batchLevel env.validStepFn "valid"
        env.iteratorValid x hx)).2.1]
  · simp [(batchLevel_not_pass_event x
      (runSingleEpochValid_batchLevel env.validStepFn "valid"
        env.iteratorValid x hx)).2.2]

/-- Claim C9: `fit_loop` runs exactly the configured number of epochs (the
`epochs` argument if given, else `max_epochs`), with no early-stopping or
convergence check, and every epoch's train and validation passes are
bracketed by exactly one `on_epoch_begin` and one `on_epoch_end`
notification carrying the train, target and validation dataset
references. -/
theorem epoch_count_and_bracketing (env : FitEnv) (epochs : Option Nat)
    (hT : (runSingleEpochTrain env.stepFn "train" env.iteratorTrain
      env.iteratorTarget).2 = Except.ok ())
    (hV : (runSingleEpochValid env.validStepFn "valid"
      env.iteratorValid).2 = Except.ok ()) :
    fit_loop env epochs =
      ((List.replicate (epochs.getD env.maxEpochs) (epochBody env).1).flatten,
       Except.ok ())
    ∧ (epochBody env).1 =
        TraceItem.ev (Event.onEpochBegin env.datasetTrain env.datasetTarget
            env.datasetValid)
          :: ((runSingleEpochTrain env.stepFn "train" env.iteratorTrain
                env.iteratorTarget).1
             ++ (runSingleEpochValid env.validStepFn "valid"
                env.iteratorValid).1
             ++ [TraceItem.ev (Event.onEpochEnd env.datasetTrain
                  env.datasetTarget env.datasetValid)])
    ∧ ((epochBody env).1).countP isEpochBeginEv = 1
    ∧ ((epochBody env).1).countP isEpochEndEv = 1
    ∧ ((fit_loop env epochs).1).countP isEpochBeginEv =
        epochs.getD env.maxEpochs
    ∧ ((fit_loop env epochs).1).countP isEpochEndEv =
        epochs.getD env.maxEpochs := by
  have hE := epochBody_ok env hT hV
  have hok : (epochBody env).2 = Except.ok () := by rw [hE]
  have hfl : fit_loop env epochs =
      ((List.replicate (epochs.getD env.maxEpochs)
        (epochBody env).1).flatten, Except.ok ()) :=
    fitLoopEpochs_replicate env hok (epochs.getD env.maxEpochs)
  have hE1 : (epochBody env).1 =
      TraceItem.ev (Event.onEpochBegin env.datasetTrain env.datasetTarget
          env.datasetValid)
        :: ((runSingleEpochTrain env.stepFn "train" env.iteratorTrain
              env.iteratorTarget).1
           ++ (runSingleEpochValid env.validStepFn "valid"
              env.iteratorValid).1
           ++ [TraceItem.ev (Event.onEpochEnd env.datasetTrain
                env.datasetTarget env.datasetValid)]) := by
    rw [hE]
  obtain ⟨hTb, hTe, hVb, hVe⟩ := trainPass_countP_epochEv env
  have hcb : ((epochBody env).1).countP isEpochBeginEv = 1 := by
    rw [hE1]
    simp [List.countP_cons, List.countP_append, hTb, hVb,
      isEpochBeginEv, isEpochEndEv]
  have hce : ((epochBody env).1).countP isEpochEndEv = 1 := by
    rw [hE1]
    simp [List.countP_cons, List.countP_append, hTe, hVe,
      isEpochBeginEv, isEpochEndEv]
  refine ⟨hfl, hE1, hcb, hce, ?_, ?_⟩
  · rw [hfl]
    simp only [countP_flatten_replicate, hcb, Nat.mul_one]
  · rw [hfl]
    simp only [countP_flatten_replicate, hce, Nat.mul_one]

/-- Witness for C9: the matched 4,4,2 environment, trained for the
default `max_epochs = 2`. -/
theorem epoch_count_and_bracketing_witness :
    ((runSingleEpochTrain envMatched.stepFn "train" envMatched.iteratorTrain
        envMatched.iteratorTarget).2 = Except.ok ()
      ∧ (runSingleEpochValid envMatched.validStepFn "valid"
        envMatched.iteratorValid).2 = Except.ok ())
    ∧ ((fit_loop envMatched none).1).countP isEpochBeginEv =
        (none : Option Nat).getD envMatched.maxEpochs :=
  ⟨⟨by rfl, by rfl⟩,
   (epoch_count_and_bracketing envMatched none (by rfl) (by rfl)).2.2.2.2.1⟩

/-- Claim C10: if the target iterator yields no batches at all, the very
first source batch's `next(iter(iterator_target))` raises
`StopIteration`; the interrupt handler catches only `KeyboardInterrupt`,
so the exception propagates out of `partial_fit` and `fit` — the pass
neither treats it as a size mismatch nor records a batch count, and
`on_train_end` never fires. -/
theorem empty_target_stopiteration (s : NetState) (w : Bool) (env : FitEnv)
    (ht : env.iteratorTarget = [])
    (hs : env.iteratorTrain ≠ [])
    (he : 0 < env.maxEpochs) :
    (partial_fit s env).2.2 = Except.error PyError.stopIteration
    ∧ (fit s w env).2.2 = Except.error PyError.stopIteration
    ∧ ((partial_fit s env).2.1).countP isTrainEndEv = 0
    ∧ ((partial_fit s env).2.1).countP
        (isRecEpochNamed "train_batch_count") = 0 := by
  obtain ⟨b, rest, hb⟩ := List.exists_cons_of_ne_nil hs
  obtain ⟨n, hn⟩ : ∃ n, env.maxEpochs = n + 1 := by
    cases hm : env.maxEpochs with
    | zero => rw [hm] at he; omega
    | succ k => exact ⟨k, rfl⟩
  have h1 : runSingleEpochTrain env.stepFn "train" env.iteratorTrain
      env.iteratorTarget = ([], Except.error PyError.stopIteration) := by
    rw [hb, ht]
    rfl
  have h2 : epochBody env =
      ([TraceItem.ev (Event.onEpochBegin env.datasetTrain env.datasetTarget
        env.datasetValid)], Except.error PyError.stopIteration) := by
    unfold epochBody
    rw [h1]
    rfl
  have h3 : fit_loop env none =
      ([TraceItem.ev (Event.onEpochBegin env.datasetTrain env.datasetTarget
        env.datasetValid)], Except.error PyError.stopIteration) := by
    unfold fit_loop
    simp only [Option.getD_none, hn, fitLoopEpochs, h2]
  have hpf : ∀ s' : NetState,
      partial_fit s' env =
        ((if s'.initialized then s' else initializeNet s'),
         [TraceItem.ev Event.onTrainBegin,
          TraceItem.ev (Event.onEpochBegin env.datasetTrain env.datasetTarget
            env.datasetValid)],
         Except.error PyError.stopIteration) := by
    intro s'
    unfold partial_fit
    rw [h3]
  refine ⟨?_, ?_, ?_, ?_⟩
  · rw [hpf s]
  · unfold fit
    rw [hpf (if w && s.initialized then s else initializeNet s)]
  · rw [hpf s]
    simp [List.countP_cons, isTrainEndEv]
  · rw [hpf s]
    simp [List.countP_cons, isRecEpochNamed]

/-- Witness for C10: an environment whose target loader is empty. -/
theorem empty_target_stopiteration_witness :
    (envEmptyTarget.iteratorTarget = []
      ∧ envEmptyTarget.iteratorTrain ≠ []
      ∧ 0 < envEmptyTarget.maxEpochs)
    ∧ (partial_fit ⟨true, 3⟩ envEmptyTarget).2.2 =
        Except.error PyError.stopIteration :=
  ⟨⟨by rfl, by decide, by decide⟩,
   (empty_target_stopiteration ⟨true, 3⟩ false envEmptyTarget (by rfl)
     (by decide) (by decide)).1⟩

end Skada
